import Mathlib

/-!
Shallow embedding of the trace construction and serialization core of the
`tracer` repository (`src/tracer/tracer.py`).

Modelling conventions:
* Timestamps (`datetime.now(tz=UTC)` readings) are embedded as integers in
  milliseconds; every operation that reads the clock in the source takes the
  reading as an explicit argument.  `str(datetime)` is abstracted to the
  decimal rendering of the integer timestamp (an injective rendering).
* Python's mutable objects become explicit state passing: a method that
  mutates `self` returns the updated `TraceBuilder`.  A `Trace` object in the
  source keeps a live pointer to its builder; here the frozen fields
  (`_return_value`, `_duration`, `_status`) live in `Trace`, and `Trace.dict`
  takes the builder's current state as an argument, modelling the pointer
  dereference performed at call time.
* The two-decimal float formatting of the duration is abstracted to
  round-half-up integer arithmetic; no claim depends on digit-level float
  rounding.
-/

/-- A Python stack frame as far as `get_function_name` inspects it:
its code object's function name, the class name of a non-`None` `self`
binding in `f_locals` (if any), the `__name__` of a non-`None` `cls`
binding in `f_locals` (if any), and `f_back`. -/
inductive Frame where
  | mk : String → Option String → Option String → Option Frame → Frame

/-- The function name of the frame's code object. -/
def Frame.function : Frame → String
  | .mk f _ _ _ => f

/-- `self_object.__class__.__name__` when `f_locals.get("self", None)` is not `None`. -/
def Frame.selfClass : Frame → Option String
  | .mk _ s _ _ => s

/-- `cls_object.__name__` when `f_locals.get("cls", None)` is not `None`. -/
def Frame.clsName : Frame → Option String
  | .mk _ _ c _ => c

/-- The caller's frame (`f_back`), `none` at the bottom of the stack. -/
def Frame.f_back : Frame → Option Frame
  | .mk _ _ _ b => b

/-- `get_function_name` from `tracer.py`: starting from
`inspect.currentframe()` (the argument; `none` models an interpreter without
frame support), walk `f_back` twice, returning `"<N/A>"` whenever a frame is
missing; then qualify the resolved function name by the class of a `self` or
`cls` binding when one is present. -/
def get_function_name (current_frame : Option Frame) : String :=
  match current_frame with
  | none => "<N/A>"
  | some f0 =>
    match f0.f_back with
    | none => "<N/A>"
    | some f1 =>
      match f1.f_back with
      | none => "<N/A>"
      | some f2 =>
        match f2.selfClass with
        | some class_name => class_name ++ "." ++ f2.function
        | none =>
          match f2.clsName with
          | some class_name => class_name ++ "." ++ f2.function
          | none => f2.function

/-- The `_status` literal of a `Trace`: `"OK" | "ERROR"`. -/
inductive Status where
  | OK : Status
  | ERROR : Status
deriving DecidableEq, Repr

/-- The string literal a `Status` stands for. -/
def Status.render : Status → String
  | .OK => "OK"
  | .ERROR => "ERROR"

/-- Python values as far as the builder/trace lifecycle inspects them:
`errV e` is a `result.Err(e)` instance (the only thing
`isinstance(return_value, Err)` looks for), `okV v` a `result.Ok(v)`
instance, and the remaining constructors are plain non-result values. -/
inductive PyVal where
  | noneV : PyVal
  | intV : Int → PyVal
  | strV : String → PyVal
  | errV : PyVal → PyVal
  | okV : PyVal → PyVal
deriving DecidableEq, Repr

/-- The frozen fields a `Trace` object stores at construction:
`_return_value`, `_duration` (`end - start` of the builder at that moment)
and `_status`.  The source's `_trace_builder` pointer is modelled by passing
the builder's current state to `Trace.dict`. -/
structure Trace where
  return_value : PyVal
  duration : Int
  status : Status
deriving DecidableEq, Repr

/-- The `value` property: returns the enclosed `_return_value`. -/
def Trace.value (t : Trace) : PyVal :=
  t.return_value

/-- The mutable state of a `TraceBuilder`: `_func_name`, `_attributes`
(a Python `dict`, i.e. an insertion-ordered association list),
`_child_traces`, `_start_time`, `_end_time`. -/
structure TraceBuilder where
  func_name : String
  attributes : List (String × PyVal)
  child_traces : List Trace
  start_time : Int
  end_time : Int
deriving DecidableEq, Repr

/-- Python `dict` assignment `d[key] = value`: overwrite the value in place
when the key is present (keeping the key's original position), otherwise
append the new pair at the end. -/
def dictSet (kvs : List (String × PyVal)) (key : String) (value : PyVal) :
    List (String × PyVal) :=
  match kvs with
  | [] => [(key, value)]
  | (k, v) :: rest =>
    if k = key then (k, value) :: rest else (k, v) :: dictSet rest key value

/-- `TraceBuilder.__init__`: `attributes` defaults to an empty dict;
`_child_traces` starts empty; `_start_time` and `_end_time` are two separate
`datetime.now(tz=UTC)` readings (`t1` then `t2`); `_func_name` is resolved by
`get_function_name()` from the caller's frame. -/
def TraceBuilder.init (caller_frame : Option Frame)
    (attributes : Option (List (String × PyVal))) (t1 t2 : Int) : TraceBuilder :=
  { func_name := get_function_name caller_frame
    attributes := attributes.getD []
    child_traces := []
    start_time := t1
    end_time := t2 }

/-- `TraceBuilder.log`: appends the trace to `_child_traces` and returns its
enclosed value.  The updated builder state is returned alongside the value. -/
def TraceBuilder.log (b : TraceBuilder) (trace : Trace) : TraceBuilder × PyVal :=
  ({ b with child_traces := b.child_traces ++ [trace] }, trace.value)

/-- The status derivation in `Trace.__init__`:
`"ERROR"` when `isinstance(return_value, Err)`, else `"OK"`. -/
def statusOf (return_value : PyVal) : Status :=
  match return_value with
  | .errV _ => .ERROR
  | _ => .OK

/-- `Trace.__init__`: freezes the return value, the duration
`trace_builder._end_time - trace_builder._start_time`, and the status. -/
def Trace.mkFrom (trace_builder : TraceBuilder) (return_value : PyVal) : Trace :=
  { return_value := return_value
    duration := trace_builder.end_time - trace_builder.start_time
    status := statusOf return_value }

/-- `TraceBuilder.bind`: sets `_end_time = datetime.now(tz=UTC)` (the `tNow`
argument) and constructs a `Trace` from the builder and the value.  Returns
the mutated builder state together with the new trace. -/
def TraceBuilder.bind (b : TraceBuilder) (tNow : Int) (value : PyVal) :
    TraceBuilder × Trace :=
  let b2 := { b with end_time := tNow }
  (b2, Trace.mkFrom b2 value)

/-- `TraceBuilder.set_attribute`: `self._attributes[key] = value`. -/
def TraceBuilder.set_attribute (b : TraceBuilder) (key : String) (value : PyVal) :
    TraceBuilder :=
  { b with attributes := dictSet b.attributes key value }

/-- Rendering of a timestamp by `str(datetime)`, abstracted to the decimal
rendering of the integer millisecond timestamp. -/
def timeStr (t : Int) : String :=
  toString t

/-- The `duration_seconds` string of `Trace.dict`:
`f"{(duration / timedelta(milliseconds=1)) / 1000:.2f} seconds"`, with the
two-decimal float formatting abstracted to round-half-up integer arithmetic
on the millisecond duration. -/
def durationSecondsStr (ms : Int) : String :=
  let hundredths : Int := (ms + 5) / 10
  let whole := hundredths / 100
  let fracN := (hundredths % 100).toNat
  let fracS := if fracN < 10 then "0" ++ toString fracN else toString fracN
  toString whole ++ "." ++ fracS ++ " seconds"

/-- A value stored in the dictionary returned by `Trace.dict`: a string, a
raw Python value (`return_value`), the attributes dict, or the raw list of
child `Trace` objects. -/
inductive DVal where
  | str : String → DVal
  | val : PyVal → DVal
  | attrsD : List (String × PyVal) → DVal
  | childL : List Trace → DVal
deriving DecidableEq, Repr

/-- `Trace.dict`: the dictionary literal built by the source, in source
order.  `function_name`, `start_time`, `end_time`, `attributes` and
`children` are read through the `_trace_builder` pointer at call time (the
`b` argument: the builder's current state); `status`, `duration` and
`return_value` are the trace's frozen fields. -/
def Trace.dict (tr : Trace) (b : TraceBuilder) : List (String × DVal) :=
  [("function_name", .str b.func_name),
   ("status", .str tr.status.render),
   ("start_time", .str (timeStr b.start_time)),
   ("end_time", .str (timeStr b.end_time)),
   ("duration", .str (durationSecondsStr tr.duration)),
   ("attributes", .attrsD b.attributes),
   ("return_value", .val tr.return_value),
   ("children", .childL b.child_traces)]

/-- First-match lookup in an association list (Python `d[k]` /
`dict.get`). -/
def alookup {α : Type} (kvs : List (String × α)) (key : String) : Option α :=
  match kvs with
  | [] => none
  | (k, v) :: rest => if k = key then some v else alookup rest key

/-- The keys of an association list, in order (Python `list(d)`). -/
def keysOf {α : Type} (kvs : List (String × α)) : List String :=
  kvs.map Prod.fst

/-- One mutation step performed on an open builder: a `set_attribute` call
or a `log` call. -/
inductive BOp where
  | setA : String → PyVal → BOp
  | logT : Trace → BOp
deriving DecidableEq, Repr

/-- Run a sequence of `set_attribute` / `log` calls on a builder. -/
def runOps (b : TraceBuilder) : List BOp → TraceBuilder
  | [] => b
  | .setA k v :: rest => runOps (b.set_attribute k v) rest
  | .logT tr :: rest => runOps (b.log tr).fst rest

/-- The number of `log` calls in an operation sequence. -/
def countLogs : List BOp → Nat
  | [] => 0
  | .setA _ _ :: rest => countLogs rest
  | .logT _ :: rest => 1 + countLogs rest

/-- Run a sequence of `set_attribute` calls, given as key/value pairs. -/
def applySetAttrs (b : TraceBuilder) (ops : List (String × PyVal)) : TraceBuilder :=
  ops.foldl (fun acc kv => acc.set_attribute kv.1 kv.2) b

/-- Modelled from the spec: the value the last `set_attribute` call with the
given key wrote, if any ("last-write-wins per key"). -/
def specLastWrite (ops : List (String × PyVal)) (key : String) : Option PyVal :=
  match ops with
  | [] => none
  | (k, v) :: rest =>
    match specLastWrite rest key with
    | some w => some w
    | none => if k = key then some v else none

/-- Modelled from the spec: keep each key's first occurrence, skipping keys
already seen ("first-insertion order of keys"). -/
def specFirstKeysFrom (seen : List String) : List String → List String
  | [] => []
  | k :: ks =>
    if k ∈ seen then specFirstKeysFrom seen ks
    else k :: specFirstKeysFrom (k :: seen) ks

/-- Modelled from the spec: the first-insertion order of a key sequence. -/
def specFirstInsertionOrder (ks : List String) : List String :=
  specFirstKeysFrom [] ks

/-- A Python `dict` key as `json.dumps` classifies it: `str` keys are used
directly; `int`, `bool` and `None` keys are coerced to their JSON literal
text; any other hashable key (modelled here by a tuple of keys) makes
`json.dumps` raise `TypeError` — the `default` hook is never consulted for
keys. -/
inductive PyKey where
  | strK : String → PyKey
  | intK : Int → PyKey
  | boolK : Bool → PyKey
  | noneK : PyKey
  | tupleK : List PyKey → PyKey

/-- The key handling of `json.dumps` (with its default `skipkeys=False`):
`str` keys pass through, `int`/`bool`/`None` keys become their JSON text,
and any other key raises `TypeError` without consulting the `default`
hook. -/
def jsonKey : PyKey → Except String String
  | .strK s => .ok s
  | .intK n => .ok (toString n)
  | .boolK b => .ok (if b then "true" else "false")
  | .noneK => .ok "null"
  | .tupleK _ => .error "TypeError: keys must be str, int, float, bool or None"

/-- A Python value as seen by `json.dumps(..., default=safe_serialize)`.
The natively serializable shapes are `nullV`, `boolV`, `intV2`, `strV2`,
`listV` and `dictV` (whose keys are arbitrary `PyKey`s, as in Python).
`traceV rec dund` is a `Trace` instance: `rec` is what its `dict()` method
returns at serialization time and `dund` its `__dict__` (carried to show the
`isinstance(Trace)` branch is checked first).  `objV dund r` is a non-`Trace`
object with a `__dict__` (`dund`) and `repr` rendering `r`; `noDictV r` is
an object without a `__dict__` (e.g. a `__slots__` instance).  In both, `r`
is `none` when the object's user-defined `__repr__` raises. -/
inductive SVal where
  | nullV : SVal
  | boolV : Bool → SVal
  | intV2 : Int → SVal
  | strV2 : String → SVal
  | listV : List SVal → SVal
  | dictV : List (PyKey × SVal) → SVal
  | traceV : List (PyKey × SVal) → List (PyKey × SVal) → SVal
  | objV : List (PyKey × SVal) → Option String → SVal
  | noDictV : Option String → SVal

/-- `getattr(object, "__dict__", None)`: `Trace` instances and plain objects
have a `__dict__`; primitives, lists, dicts and `__slots__` instances do
not. -/
def dunderDict : SVal → Option (List (PyKey × SVal))
  | .traceV _ dund => some dund
  | .objV dund _ => some dund
  | _ => none

mutual
/-- `repr` of a dict key (total: keys are hashable builtins). -/
def pyKeyRepr : PyKey → String
  | .strK s =>
    String.singleton (Char.ofNat 39) ++ s ++ String.singleton (Char.ofNat 39)
  | .intK n => toString n
  | .boolK true => "True"
  | .boolK false => "False"
  | .noneK => "None"
  | .tupleK ks => "(" ++ String.intercalate ", " (pyKeyReprList ks) ++ ")"

/-- `repr` of each element of a tuple key. -/
def pyKeyReprList : List PyKey → List String
  | [] => []
  | k :: ks => pyKeyRepr k :: pyKeyReprList ks
end

mutual
/-- Python `repr`, as far as `safe_serialize`'s last branch can observe it —
fallible: a value whose user `__repr__` raises (`objV`/`noDictV` with `r =
none`) propagates the exception, also through the `repr` of any container
holding it.  For a `Trace` the source's `__repr__` delegates to the external
rich pretty-printer; that branch is unreachable from `safe_serialize` (the
`isinstance(Trace)` branch fires first), so it is rendered as an empty
string here. -/
def pyReprE : SVal → Except String String
  | .nullV => .ok "None"
  | .boolV true => .ok "True"
  | .boolV false => .ok "False"
  | .intV2 n => .ok (toString n)
  | .strV2 s =>
    .ok (String.singleton (Char.ofNat 39) ++ s ++ String.singleton (Char.ofNat 39))
  | .listV xs =>
    match pyReprListE xs with
    | .error e => .error e
    | .ok rs => .ok ("[" ++ String.intercalate ", " rs ++ "]")
  | .dictV kvs =>
    match pyReprPairsE kvs with
    | .error e => .error e
    | .ok rs => .ok ("\x7b" ++ String.intercalate ", " rs ++ "\x7d")
  | .traceV _ _ => .ok ""
  | .objV _ (some r) => .ok r
  | .objV _ none => .error "repr raised"
  | .noDictV (some r) => .ok r
  | .noDictV none => .error "repr raised"

/-- `repr` of each element of a list, propagating a raising `__repr__`. -/
def pyReprListE : List SVal → Except String (List String)
  | [] => .ok []
  | x :: xs =>
    match pyReprE x with
    | .error e => .error e
    | .ok r =>
      match pyReprListE xs with
      | .error e => .error e
      | .ok rs => .ok (r :: rs)

/-- `repr` of each entry of a dict, propagating a raising `__repr__`. -/
def pyReprPairsE : List (PyKey × SVal) → Except String (List String)
  | [] => .ok []
  | (k, v) :: rest =>
    match pyReprE v with
    | .error e => .error e
    | .ok rv =>
      match pyReprPairsE rest with
      | .error e => .error e
      | .ok rs => .ok ((pyKeyRepr k ++ ": " ++ rv) :: rs)
end

/-- The final branch of `safe_serialize`, `return repr(object)`: a raising
`__repr__` propagates out of `safe_serialize` (and hence out of
`json.dumps`). -/
def reprFallback (o : SVal) : Except String SVal :=
  match pyReprE o with
  | .error e => .error e
  | .ok r => .ok (.strV2 r)

/-- `safe_serialize` from `tracer.py`, branch for branch:
if the object is a `Trace`, return `object.dict()`; else if
`getattr(object, "__dict__", None)` is not `None`, return that mapping;
else return `repr(object)` (whose exception, if any, propagates). -/
def safe_serialize (obj : SVal) : Except String SVal :=
  match obj with
  | .traceV rec _ => .ok (.dictV rec)
  | o =>
    match dunderDict o with
    | some d => .ok (.dictV d)
    | none => reprFallback o

/-- Whether `json.dumps` serializes the value natively, without consulting
the `default` callback. -/
def isNative : SVal → Bool
  | .nullV => true
  | .boolV _ => true
  | .intV2 _ => true
  | .strV2 _ => true
  | .listV _ => true
  | .dictV _ => true
  | _ => false

/-- Keys on which `jsonKey` succeeds (`str`/`int`/`bool`/`None`, not
tuples). -/
def keyOk : PyKey → Bool
  | .tupleK _ => false
  | _ => true

mutual
/-- The domain on which `json.dumps(..., default=safe_serialize)` succeeds:
every nested dict key is a JSON-primitive key and every `repr` the encoder
can reach is present (does not raise).  A `traceV` value's `__dict__` and an
`objV` value's `repr` are never consulted, so they are unconstrained. -/
def benign : SVal → Bool
  | .nullV => true
  | .boolV _ => true
  | .intV2 _ => true
  | .strV2 _ => true
  | .listV xs => benignList xs
  | .dictV kvs => benignPairs kvs
  | .traceV rec _ => benignPairs rec
  | .objV dund _ => benignPairs dund
  | .noDictV r => r.isSome

/-- `benign` for every element of a list. -/
def benignList : List SVal → Bool
  | [] => true
  | x :: xs => benign x && benignList xs

/-- `keyOk` for every key and `benign` for every value of a dict. -/
def benignPairs : List (PyKey × SVal) → Bool
  | [] => true
  | (k, v) :: rest => keyOk k && benign v && benignPairs rest
end

/-- Whether an encoding attempt succeeded (no exception raised). -/
def exOk {α : Type} : Except String α → Bool
  | .ok _ => true
  | .error _ => false

/-- The JSON documents `json.dumps` produces. -/
inductive Json where
  | null : Json
  | bool : Bool → Json
  | num : Int → Json
  | str : String → Json
  | arr : List Json → Json
  | obj : List (String × Json) → Json

mutual
/-- `json.dumps(v, default=safe_serialize)` with its error paths: native
values are encoded structurally (dict keys via `jsonKey`, so a non-primitive
key raises `TypeError`); a non-native value is replaced by `safe_serialize`'s
result and encoding continues on that result (the one `default` step is
fused in: a `Trace` encodes as its `dict()` record, an object with a
`__dict__` as that mapping, anything else as its `repr` string, a raising
`repr` propagating as an error). -/
def encodeJsonE : SVal → Except String Json
  | .nullV => .ok .null
  | .boolV b => .ok (.bool b)
  | .intV2 n => .ok (.num n)
  | .strV2 s => .ok (.str s)
  | .listV xs =>
    match encodeListE xs with
    | .error e => .error e
    | .ok js => .ok (.arr js)
  | .dictV kvs =>
    match encodePairsE kvs with
    | .error e => .error e
    | .ok js => .ok (.obj js)
  | .traceV rec _ =>
    match encodePairsE rec with
    | .error e => .error e
    | .ok js => .ok (.obj js)
  | .objV dund _ =>
    match encodePairsE dund with
    | .error e => .error e
    | .ok js => .ok (.obj js)
  | .noDictV (some r) => .ok (.str r)
  | .noDictV none => .error "repr raised"

/-- Encode every element of a JSON array, propagating the first error. -/
def encodeListE : List SVal → Except String (List Json)
  | [] => .ok []
  | x :: xs =>
    match encodeJsonE x with
    | .error e => .error e
    | .ok j =>
      match encodeListE xs with
      | .error e => .error e
      | .ok js => .ok (j :: js)

/-- Encode every entry of a JSON object — key first, then value — keeping
every key and propagating the first error. -/
def encodePairsE : List (PyKey × SVal) → Except String (List (String × Json))
  | [] => .ok []
  | (k, v) :: rest =>
    match jsonKey k with
    | .error e => .error e
    | .ok ks =>
      match encodeJsonE v with
      | .error e => .error e
      | .ok j =>
        match encodePairsE rest with
        | .error e => .error e
        | .ok js => .ok ((ks, j) :: js)
end

/-- C2: for every builder state and clock reading, the `Trace` produced by
`bind(v)` has status `ERROR` exactly when `v` is a `result.Err` instance,
and status `OK` for every other value (including `result.Ok` instances and
plain values). -/
theorem bind_status_error_iff_err (b : TraceBuilder) (tNow : Int) (v : PyVal) :
    ((b.bind tNow v).snd.status = Status.ERROR ↔ ∃ e, v = PyVal.errV e)
    ∧ ((b.bind tNow v).snd.status = Status.OK ↔ ∀ e, v ≠ PyVal.errV e) := by
  cases v <;> simp [TraceBuilder.bind, Trace.mkFrom, statusOf]

/-- C3: for every builder state (any sequence of prior logs) and every child
trace, `log(child)` returns exactly `child.value` and appends `child` as the
new last element of `_child_traces`, leaving every other field (and all
previously logged children, in order) unchanged. -/
theorem log_returns_value_and_appends (b : TraceBuilder) (tr : Trace) :
    (b.log tr).snd = tr.value
    ∧ (b.log tr).fst.child_traces = b.child_traces ++ [tr]
    ∧ (b.log tr).fst.attributes = b.attributes
    ∧ (b.log tr).fst.func_name = b.func_name
    ∧ (b.log tr).fst.start_time = b.start_time
    ∧ (b.log tr).fst.end_time = b.end_time := by
  simp [TraceBuilder.log]

/-- C6: whenever the clock reading taken by `bind` is at least the builder's
start time (a monotone wall clock), the finalized builder satisfies
`end_time >= start_time` and the produced trace's duration, computed as
`end_time - start_time` at `Trace` construction, is nonnegative. -/
theorem bind_end_time_ge_start_time (b : TraceBuilder) (tNow : Int) (v : PyVal)
    (h : b.start_time ≤ tNow) :
    (b.bind tNow v).fst.start_time ≤ (b.bind tNow v).fst.end_time
    ∧ 0 ≤ (b.bind tNow v).snd.duration := by
  simp [TraceBuilder.bind, Trace.mkFrom]
  omega

/-- C6 witness: the monotone-clock hypothesis holds on a concrete builder
(constructed at time 0, finalized at time 5). -/
theorem bind_end_time_ge_start_time_holds :
    ((TraceBuilder.init none none 0 0).bind 5 (PyVal.intV 8)).fst.start_time
      ≤ ((TraceBuilder.init none none 0 0).bind 5 (PyVal.intV 8)).fst.end_time
    ∧ 0 ≤ ((TraceBuilder.init none none 0 0).bind 5 (PyVal.intV 8)).snd.duration :=
  bind_end_time_ge_start_time (TraceBuilder.init none none 0 0) 5 (PyVal.intV 8)
    (by decide)

/-- C7 counterexample: a freshly constructed, not yet finalized builder whose
two construction-time clock readings were 0 and 1 has `end_time = 1` but
`start_time = 0`, so before `bind` the two need not be equal: `__init__`
captures `_end_time` with a second, separate `datetime.now` call. -/
theorem init_end_time_can_differ_from_start_time :
    (TraceBuilder.init none none 0 1).end_time
      ≠ (TraceBuilder.init none none 0 1).start_time := by
  decide

/-- C7 amended: from construction until `bind`, the builder's `end_time`
equals the second construction-time clock reading (which coincides with
`start_time` only when the two readings coincide); `set_attribute` and `log`
never modify `end_time`, and only `bind` updates it, to the clock reading
taken at finalization. -/
theorem end_time_second_reading_until_bind
    (fr : Option Frame) (a : Option (List (String × PyVal))) (t1 t2 : Int)
    (b : TraceBuilder) (k : String) (v : PyVal) (tr : Trace)
    (tNow : Int) (w : PyVal) :
    (TraceBuilder.init fr a t1 t2).end_time = t2
    ∧ (b.set_attribute k v).end_time = b.end_time
    ∧ (b.log tr).fst.end_time = b.end_time
    ∧ (b.bind tNow w).fst.end_time = tNow := by
  simp [TraceBuilder.init, TraceBuilder.set_attribute, TraceBuilder.log,
    TraceBuilder.bind]

/-- C9: caller-name resolution returns the sentinel `"<N/A>"` whenever the
current frame or either of the two frames above it is missing; when the
frame two levels up has a `self` binding the name is qualified by the
instance's class, when it has only a `cls` binding it is qualified by that
class, and otherwise the bare function name is returned.  `__init__` stores
the resolved name unconditionally, so an unresolvable caller never blocks
construction. -/
theorem get_function_name_resolution
    (fn0 : String) (s0 c0 : Option String)
    (fn1 : String) (s1 c1 : Option String)
    (fn2 : String) (c2 : Option String) (bk : Option Frame)
    (selfC cls : String)
    (fr : Option Frame) (a : Option (List (String × PyVal))) (t1 t2 : Int) :
    get_function_name none = "<N/A>"
    ∧ get_function_name (some (.mk fn0 s0 c0 none)) = "<N/A>"
    ∧ get_function_name (some (.mk fn0 s0 c0 (some (.mk fn1 s1 c1 none)))) = "<N/A>"
    ∧ get_function_name (some (.mk fn0 s0 c0 (some (.mk fn1 s1 c1
        (some (.mk fn2 (some selfC) c2 bk)))))) = selfC ++ "." ++ fn2
    ∧ get_function_name (some (.mk fn0 s0 c0 (some (.mk fn1 s1 c1
        (some (.mk fn2 none (some cls) bk)))))) = cls ++ "." ++ fn2
    ∧ get_function_name (some (.mk fn0 s0 c0 (some (.mk fn1 s1 c1
        (some (.mk fn2 none none bk)))))) = fn2
    ∧ (TraceBuilder.init fr a t1 t2).func_name = get_function_name fr := by
  simp [get_function_name, Frame.f_back, Frame.selfClass, Frame.clsName,
    Frame.function, TraceBuilder.init]

/-- C1, behavior at the failing input (builder constructed with clock
readings 0, 0; first `bind` at 5000; misuse afterwards): the code has no
finalization state and raises nothing.  A second `bind` at 9000 silently
overwrites `_end_time` and produces a fresh `Trace`; `set_attribute` and
`log` after finalization silently mutate the builder; and because the
already-produced `Trace` renders through the live builder pointer, its
`dict()` output is altered by the second `bind` (rendered `end_time` moves
from 5000 to 9000). -/
theorem bind_twice_silently_overwrites :
    ((((TraceBuilder.init none none 0 0).bind 5000 (PyVal.intV 1)).fst.bind
        9000 (PyVal.intV 2)).fst.end_time = 9000)
    ∧ ((((TraceBuilder.init none none 0 0).bind 5000 (PyVal.intV 1)).fst.bind
        9000 (PyVal.intV 2)).snd.duration = 9000)
    ∧ alookup
        (Trace.dict ((TraceBuilder.init none none 0 0).bind 5000 (PyVal.intV 1)).snd
          ((TraceBuilder.init none none 0 0).bind 5000 (PyVal.intV 1)).fst)
        "end_time" = some (DVal.str "5000")
    ∧ alookup
        (Trace.dict ((TraceBuilder.init none none 0 0).bind 5000 (PyVal.intV 1)).snd
          ((((TraceBuilder.init none none 0 0).bind 5000 (PyVal.intV 1)).fst.bind
            9000 (PyVal.intV 2)).fst))
        "end_time" = some (DVal.str "9000")
    ∧ ((((TraceBuilder.init none none 0 0).bind 5000 (PyVal.intV 1)).fst.set_attribute
        "k" (PyVal.intV 0)).attributes = [("k", PyVal.intV 0)])
    ∧ ((((TraceBuilder.init none none 0 0).bind 5000 (PyVal.intV 1)).fst.log
        ((TraceBuilder.init none none 0 0).bind 5000 (PyVal.intV 1)).snd).fst.child_traces.length
        = 1) := by
  decide

/-- C10: `Trace.dict` reads `function_name`, `start_time`, `end_time`,
`attributes` and `children` from the originating builder's state at call
time, while `status`, `duration` and `return_value` come frozen from the
trace; consequently mutating the builder after `bind` changes the
`dict()`/`json()` output of the already-produced trace.  On a concrete run
(construction at 0, `bind` at 5000, then `set_attribute` and a second `bind`
at 9000) the rendered output changes and the frozen duration (5000 ms) no
longer matches the rendered `start_time`/`end_time` span (9000 ms). -/
theorem trace_dict_reads_builder_live (tr : Trace) (b : TraceBuilder) :
    (alookup (tr.dict b) "function_name" = some (.str b.func_name)
      ∧ alookup (tr.dict b) "start_time" = some (.str (timeStr b.start_time))
      ∧ alookup (tr.dict b) "end_time" = some (.str (timeStr b.end_time))
      ∧ alookup (tr.dict b) "attributes" = some (.attrsD b.attributes)
      ∧ alookup (tr.dict b) "children" = some (.childL b.child_traces)
      ∧ alookup (tr.dict b) "status" = some (.str tr.status.render)
      ∧ alookup (tr.dict b) "duration" = some (.str (durationSecondsStr tr.duration))
      ∧ alookup (tr.dict b) "return_value" = some (.val tr.return_value))
    ∧ (Trace.dict ((TraceBuilder.init none none 0 0).bind 5000 (PyVal.intV 1)).snd
          ((TraceBuilder.init none none 0 0).bind 5000 (PyVal.intV 1)).fst
        ≠ Trace.dict ((TraceBuilder.init none none 0 0).bind 5000 (PyVal.intV 1)).snd
          (((TraceBuilder.init none none 0 0).bind 5000 (PyVal.intV 1)).fst.set_attribute
            "x" (PyVal.intV 7)))
    ∧ ((TraceBuilder.init none none 0 0).bind 5000 (PyVal.intV 1)).snd.duration = 5000
    ∧ ((((TraceBuilder.init none none 0 0).bind 5000 (PyVal.intV 1)).fst.bind
          9000 (PyVal.intV 2)).fst.end_time
        - (((TraceBuilder.init none none 0 0).bind 5000 (PyVal.intV 1)).fst.bind
          9000 (PyVal.intV 2)).fst.start_time = 9000)
    ∧ alookup
        (Trace.dict ((TraceBuilder.init none none 0 0).bind 5000 (PyVal.intV 1)).snd
          ((((TraceBuilder.init none none 0 0).bind 5000 (PyVal.intV 1)).fst.bind
            9000 (PyVal.intV 2)).fst))
        "duration" = some (.str (durationSecondsStr 5000))
    ∧ alookup
        (Trace.dict ((TraceBuilder.init none none 0 0).bind 5000 (PyVal.intV 1)).snd
          ((((TraceBuilder.init none none 0 0).bind 5000 (PyVal.intV 1)).fst.bind
            9000 (PyVal.intV 2)).fst))
        "end_time" = some (.str (timeStr 9000)) := by
  refine ⟨⟨?_, ?_, ?_, ?_, ?_, ?_, ?_, ?_⟩, by decide, by decide, by decide,
      by decide, by decide⟩ <;>
    simp [Trace.dict, alookup]

/-- Each `log` call appends exactly one child; `set_attribute` appends
none. -/
theorem runOps_child_traces_length (ops : List BOp) (b : TraceBuilder) :
    (runOps b ops).child_traces.length
      = b.child_traces.length + countLogs ops := by
  induction ops generalizing b with
  | nil => simp [runOps, countLogs]
  | cons op rest ih =>
    cases op with
    | setA k v =>
      simp [runOps, countLogs, TraceBuilder.set_attribute, ih]
    | logT tr =>
      simp [runOps, countLogs, TraceBuilder.log, ih]
      omega

/-- C5 counterexample: on a concrete finalized trace, the `dict()` record
(the data `to_json` serializes) has eight top-level keys, not six. -/
theorem dict_has_eight_top_level_keys_not_six :
    (keysOf (Trace.dict ((TraceBuilder.init none none 0 0).bind 0 PyVal.noneV).snd
        ((TraceBuilder.init none none 0 0).bind 0 PyVal.noneV).fst)).length = 8
    ∧ (keysOf (Trace.dict ((TraceBuilder.init none none 0 0).bind 0 PyVal.noneV).snd
        ((TraceBuilder.init none none 0 0).bind 0 PyVal.noneV).fst)).length ≠ 6 := by
  decide

/-- C5 amended: for every finalized trace (any interleaving of
`set_attribute` and `log` calls followed by `bind`), the serialized record
contains all eight top-level keys in the canonical order `function_name`,
`status`, `start_time`, `end_time`, `duration`, `attributes`,
`return_value`, `children`, and the `children` array is the builder's child
list, whose length equals the number of `log()` calls made before `bind`. -/
theorem dict_canonical_keys_and_children_count
    (fr : Option Frame) (ops : List BOp) (t1 t2 tNow : Int) (v : PyVal) :
    keysOf (Trace.dict ((runOps (TraceBuilder.init fr none t1 t2) ops).bind tNow v).snd
        ((runOps (TraceBuilder.init fr none t1 t2) ops).bind tNow v).fst)
      = ["function_name", "status", "start_time", "end_time", "duration",
         "attributes", "return_value", "children"]
    ∧ alookup (Trace.dict ((runOps (TraceBuilder.init fr none t1 t2) ops).bind tNow v).snd
          ((runOps (TraceBuilder.init fr none t1 t2) ops).bind tNow v).fst) "children"
      = some (DVal.childL
          ((runOps (TraceBuilder.init fr none t1 t2) ops).bind tNow v).fst.child_traces)
    ∧ ((runOps (TraceBuilder.init fr none t1 t2) ops).bind tNow v).fst.child_traces.length
      = countLogs ops := by
  refine ⟨by simp [Trace.dict, keysOf], by simp [Trace.dict, alookup], ?_⟩
  have h := runOps_child_traces_length ops (TraceBuilder.init fr none t1 t2)
  simp [TraceBuilder.bind]
  rw [h]
  simp [TraceBuilder.init]

/-- Assigning a key makes it look up to the assigned value. -/
theorem alookup_dictSet_self (kvs : List (String × PyVal)) (k : String) (v : PyVal) :
    alookup (dictSet kvs k v) k = some v := by
  induction kvs with
  | nil => simp [dictSet, alookup]
  | cons hd tl ih =>
    obtain ⟨k0, v0⟩ := hd
    by_cases h : k0 = k
    · simp [dictSet, alookup, h]
    · simp [dictSet, alookup, h, ih]

/-- Assigning a key leaves every other key's lookup unchanged. -/
theorem alookup_dictSet_other (kvs : List (String × PyVal)) (k : String) (v : PyVal)
    (q : String) (h : q ≠ k) :
    alookup (dictSet kvs k v) q = alookup kvs q := by
  induction kvs with
  | nil => simp [dictSet, alookup, Ne.symm h]
  | cons hd tl ih =>
    obtain ⟨k0, v0⟩ := hd
    by_cases h0 : k0 = k
    · subst h0
      simp [dictSet, alookup, Ne.symm h]
    · simp [dictSet, alookup, h0, ih]

/-- Assigning a key keeps the key order, appending the key only when it is
new. -/
theorem keysOf_dictSet (kvs : List (String × PyVal)) (k : String) (v : PyVal) :
    keysOf (dictSet kvs k v)
      = if k ∈ keysOf kvs then keysOf kvs else keysOf kvs ++ [k] := by
  induction kvs with
  | nil => simp [dictSet, keysOf]
  | cons hd tl ih =>
    obtain ⟨k0, v0⟩ := hd
    by_cases h : k0 = k
    · subst h
      simp [dictSet, keysOf]
    · have e : dictSet ((k0, v0) :: tl) k v = (k0, v0) :: dictSet tl k v := by
        simp [dictSet, h]
      have e2 : keysOf ((k0, v0) :: dictSet tl k v) = k0 :: keysOf (dictSet tl k v) := rfl
      have e3 : keysOf ((k0, v0) :: tl) = k0 :: keysOf tl := rfl
      rw [e, e2, e3, ih]
      by_cases hm : k ∈ keysOf tl <;> simp [hm, Ne.symm h]

/-- A run of `set_attribute` calls realizes last-write-wins lookup, falling
back to the builder's prior attributes for keys the run never wrote. -/
theorem applySetAttrs_alookup (ops : List (String × PyVal)) (b : TraceBuilder)
    (k : String) :
    alookup (applySetAttrs b ops).attributes k
      = match specLastWrite ops k with
        | some w => some w
        | none => alookup b.attributes k := by
  induction ops generalizing b with
  | nil => simp [applySetAttrs, specLastWrite]
  | cons hd rest ih =>
    obtain ⟨k0, v0⟩ := hd
    have e : applySetAttrs b ((k0, v0) :: rest)
        = applySetAttrs (b.set_attribute k0 v0) rest := rfl
    rw [e, ih]
    cases hsw : specLastWrite rest k with
    | some w => simp [specLastWrite, hsw]
    | none =>
      by_cases h : k0 = k
      · subst h
        simp [specLastWrite, hsw, TraceBuilder.set_attribute, alookup_dictSet_self]
      · simp [specLastWrite, hsw, h, TraceBuilder.set_attribute,
          alookup_dictSet_other b.attributes k0 v0 k (Ne.symm h)]

/-- `specFirstKeysFrom` depends on the seen set only through membership. -/
theorem specFirstKeysFrom_congr (l : List String) (s1 s2 : List String)
    (h : ∀ x, x ∈ s1 ↔ x ∈ s2) :
    specFirstKeysFrom s1 l = specFirstKeysFrom s2 l := by
  induction l generalizing s1 s2 with
  | nil => rfl
  | cons k ks ih =>
    by_cases hk : k ∈ s1
    · have hk2 : k ∈ s2 := (h k).mp hk
      simp [specFirstKeysFrom, hk, hk2, ih s1 s2 h]
    · have hk2 : k ∉ s2 := fun c => hk ((h k).mpr c)
      simp [specFirstKeysFrom, hk, hk2]
      exact ih (k :: s1) (k :: s2) (by intro x; simp [h x])

/-- A run of `set_attribute` calls extends the key order by the run's
first-unseen keys, in first-insertion order. -/
theorem applySetAttrs_keys (ops : List (String × PyVal)) (b : TraceBuilder) :
    keysOf (applySetAttrs b ops).attributes
      = keysOf b.attributes
        ++ specFirstKeysFrom (keysOf b.attributes) (ops.map Prod.fst) := by
  induction ops generalizing b with
  | nil => simp [applySetAttrs, specFirstKeysFrom]
  | cons hd rest ih =>
    obtain ⟨k0, v0⟩ := hd
    have e : applySetAttrs b ((k0, v0) :: rest)
        = applySetAttrs (b.set_attribute k0 v0) rest := rfl
    rw [e, ih]
    by_cases h : k0 ∈ keysOf b.attributes
    · have hk : keysOf (b.set_attribute k0 v0).attributes = keysOf b.attributes := by
        simp [TraceBuilder.set_attribute, keysOf_dictSet, h]
      rw [hk]
      simp [specFirstKeysFrom, h]
    · have hk : keysOf (b.set_attribute k0 v0).attributes
          = keysOf b.attributes ++ [k0] := by
        simp [TraceBuilder.set_attribute, keysOf_dictSet, h]
      rw [hk]
      have hc : specFirstKeysFrom (keysOf b.attributes ++ [k0]) (rest.map Prod.fst)
          = specFirstKeysFrom (k0 :: keysOf b.attributes) (rest.map Prod.fst) := by
        apply specFirstKeysFrom_congr
        intro x
        simp [or_comm]
      rw [hc]
      simp [specFirstKeysFrom, h]

/-- C8: for every sequence of `set_attribute` calls on a fresh builder, the
final attributes mapping is last-write-wins per key (a later call with an
existing key overwrites that key's value) and the key order is the order in
which each key was first inserted. -/
theorem set_attribute_last_write_wins_insertion_order
    (fr : Option Frame) (t1 t2 : Int) (ops : List (String × PyVal)) :
    (∀ k, alookup (applySetAttrs (TraceBuilder.init fr none t1 t2) ops).attributes k
        = specLastWrite ops k)
    ∧ keysOf (applySetAttrs (TraceBuilder.init fr none t1 t2) ops).attributes
      = specFirstInsertionOrder (ops.map Prod.fst) := by
  constructor
  · intro k
    rw [applySetAttrs_alookup]
    cases hsw : specLastWrite ops k <;>
      simp [TraceBuilder.init, alookup, Option.getD]
  · rw [applySetAttrs_keys]
    simp [TraceBuilder.init, keysOf, specFirstInsertionOrder, Option.getD]

/-- A key accepted by `keyOk` is coerced successfully by `jsonKey`. -/
theorem jsonKey_ok_of_keyOk (k : PyKey) (h : keyOk k = true) :
    ∃ s, jsonKey k = .ok s := by
  cases k with
  | strK s => exact ⟨s, rfl⟩
  | intK n => exact ⟨toString n, rfl⟩
  | boolK b => exact ⟨if b then "true" else "false", rfl⟩
  | noneK => exact ⟨"null", rfl⟩
  | tupleK ks => simp [keyOk] at h

/-- The `repr` branch of `safe_serialize` yields a string, a natively
serializable value, whenever it does not raise. -/
theorem reprFallback_isNative (o : SVal) (s2 : SVal)
    (h : reprFallback o = .ok s2) : isNative s2 = true := by
  cases hp : pyReprE o with
  | error e =>
    simp only [reprFallback, hp] at h
    exact Except.noConfusion h
  | ok r =>
    simp only [reprFallback, hp] at h
    have h2 : SVal.strV2 r = s2 := by simpa using h
    rw [← h2]
    rfl

/-- One `safe_serialize` step, when it does not raise, always yields a
natively serializable value, so `json.dumps` consults the `default` hook at
most once per value and cannot loop. -/
theorem isNative_of_safe_serialize (u s2 : SVal)
    (h : safe_serialize u = .ok s2) : isNative s2 = true := by
  cases u with
  | traceV rec dund =>
    have h2 : Except.ok (SVal.dictV rec) = Except.ok s2 := h
    injection h2 with h3
    rw [← h3]
    rfl
  | objV dund r =>
    have h2 : Except.ok (SVal.dictV dund) = Except.ok s2 := h
    injection h2 with h3
    rw [← h3]
    rfl
  | nullV => exact reprFallback_isNative SVal.nullV s2 h
  | boolV b => exact reprFallback_isNative (SVal.boolV b) s2 h
  | intV2 n => exact reprFallback_isNative (SVal.intV2 n) s2 h
  | strV2 s => exact reprFallback_isNative (SVal.strV2 s) s2 h
  | listV xs => exact reprFallback_isNative (SVal.listV xs) s2 h
  | dictV kvs => exact reprFallback_isNative (SVal.dictV kvs) s2 h
  | noDictV r => exact reprFallback_isNative (SVal.noDictV r) s2 h

mutual
/-- On the benign domain (primitive dict keys, no raising `repr`), encoding
a value succeeds. -/
theorem benign_encode_ok : (v : SVal) → benign v = true → exOk (encodeJsonE v) = true
  | .nullV, _ => rfl
  | .boolV _, _ => rfl
  | .intV2 _, _ => rfl
  | .strV2 _, _ => rfl
  | .listV xs, h => by
    have hx := benignList_encode_ok xs (by simpa [benign] using h)
    cases he : encodeListE xs with
    | error e => rw [he] at hx; exact absurd hx (by simp [exOk])
    | ok js => simp [encodeJsonE, he, exOk]
  | .dictV kvs, h => by
    have hx := benignPairs_encode_ok kvs (by simpa [benign] using h)
    cases he : encodePairsE kvs with
    | error e => rw [he] at hx; exact absurd hx (by simp [exOk])
    | ok js => simp [encodeJsonE, he, exOk]
  | .traceV rec dund, h => by
    have hx := benignPairs_encode_ok rec (by simpa [benign] using h)
    cases he : encodePairsE rec with
    | error e => rw [he] at hx; exact absurd hx (by simp [exOk])
    | ok js => simp [encodeJsonE, he, exOk]
  | .objV dund r, h => by
    have hx := benignPairs_encode_ok dund (by simpa [benign] using h)
    cases he : encodePairsE dund with
    | error e => rw [he] at hx; exact absurd hx (by simp [exOk])
    | ok js => simp [encodeJsonE, he, exOk]
  | .noDictV (some r), _ => rfl
  | .noDictV none, h => by simp [benign] at h

/-- On the benign domain, encoding every element of a list succeeds. -/
theorem benignList_encode_ok :
    (xs : List SVal) → benignList xs = true → exOk (encodeListE xs) = true
  | [], _ => rfl
  | x :: xs, h => by
    have h1 : benign x = true ∧ benignList xs = true := by
      simpa [benignList, Bool.and_eq_true] using h
    have e1 := benign_encode_ok x h1.1
    have e2 := benignList_encode_ok xs h1.2
    cases hx : encodeJsonE x with
    | error e => rw [hx] at e1; exact absurd e1 (by simp [exOk])
    | ok j =>
      cases hxs : encodeListE xs with
      | error e => rw [hxs] at e2; exact absurd e2 (by simp [exOk])
      | ok js => simp [encodeListE, hx, hxs, exOk]

/-- On the benign domain, encoding every entry of a dict succeeds. -/
theorem benignPairs_encode_ok :
    (kvs : List (PyKey × SVal)) → benignPairs kvs = true → exOk (encodePairsE kvs) = true
  | [], _ => rfl
  | (k, v) :: rest, h => by
    have h1 : keyOk k = true ∧ benign v = true ∧ benignPairs rest = true := by
      simpa [benignPairs, Bool.and_eq_true, and_assoc] using h
    obtain ⟨s, hk⟩ := jsonKey_ok_of_keyOk k h1.1
    have e1 := benign_encode_ok v h1.2.1
    have e2 := benignPairs_encode_ok rest h1.2.2
    cases hv : encodeJsonE v with
    | error e => rw [hv] at e1; exact absurd e1 (by simp [exOk])
    | ok j =>
      cases hr : encodePairsE rest with
      | error e => rw [hr] at e2; exact absurd e2 (by simp [exOk])
      | ok js => simp [encodePairsE, hk, hv, hr, exOk]
end

/-- A successful object encoding pairs the entries one-to-one, in order:
every key is kept (coerced by `jsonKey`) and every value is encoded
recursively. -/
theorem encodePairsE_forall2 (kvs : List (PyKey × SVal)) :
    ∀ js, encodePairsE kvs = .ok js →
      List.Forall₂ (fun p q => jsonKey p.1 = Except.ok q.1
        ∧ encodeJsonE p.2 = Except.ok q.2) kvs js := by
  induction kvs with
  | nil =>
    intro js h
    have h2 : Except.ok ([] : List (String × Json)) = .ok js := h
    injection h2 with h3
    rw [← h3]
    exact List.Forall₂.nil
  | cons hd rest ih =>
    intro js h
    obtain ⟨k, v⟩ := hd
    cases hk : jsonKey k with
    | error e =>
      simp only [encodePairsE, hk] at h
      exact Except.noConfusion h
    | ok ks =>
      cases hv : encodeJsonE v with
      | error e =>
        simp only [encodePairsE, hk, hv] at h
        exact Except.noConfusion h
      | ok j =>
        cases hr : encodePairsE rest with
        | error e =>
          simp only [encodePairsE, hk, hv, hr] at h
          exact Except.noConfusion h
        | ok js2 =>
          simp only [encodePairsE, hk, hv, hr] at h
          have hjs : (ks, j) :: js2 = js := by simpa using h
          rw [← hjs]
          exact List.Forall₂.cons ⟨hk, hv⟩ (ih js2 hr)

/-- A successful array encoding keeps every element. -/
theorem encodeListE_length (xs : List SVal) :
    ∀ js, encodeListE xs = .ok js → js.length = xs.length := by
  induction xs with
  | nil =>
    intro js h
    have h2 : Except.ok ([] : List Json) = .ok js := h
    injection h2 with h3
    rw [← h3]
    rfl
  | cons x rest ih =>
    intro js h
    cases hx : encodeJsonE x with
    | error e =>
      simp only [encodeListE, hx] at h
      exact Except.noConfusion h
    | ok j =>
      cases hr : encodeListE rest with
      | error e =>
        simp only [encodeListE, hx, hr] at h
        exact Except.noConfusion h
      | ok js2 =>
        simp only [encodeListE, hx, hr] at h
        have hjs : j :: js2 = js := by simpa using h
        rw [← hjs]
        simp [ih js2 hr]

/-- C4 counterexample: `to_json` can raise.  Serializing a trace record
whose `attributes` hold the value of `set_attribute("m", dict with the
tuple key (1, 2))` raises `TypeError` — `json.dumps` never consults the
`default` fallback for dict keys — and serializing a `__slots__` object
whose user `__repr__` raises propagates that exception. -/
theorem to_json_raises_on_nested_tuple_key :
    encodeJsonE (SVal.traceV
        [(PyKey.strK "function_name", SVal.strV2 "f"),
         (PyKey.strK "attributes",
           SVal.dictV [(PyKey.strK "m",
             SVal.dictV [(PyKey.tupleK [PyKey.intK 1, PyKey.intK 2],
               SVal.strV2 "x")])])]
        [])
      = .error "TypeError: keys must be str, int, float, bool or None"
    ∧ encodeJsonE (SVal.noDictV none) = .error "repr raised" :=
  ⟨rfl, rfl⟩

/-- C4 amended: serialization applies the fallback in the fixed source
order — a `Trace` value is replaced by its structured record (its `__dict__`
is never consulted), otherwise a value exposing a `__dict__` is replaced by
that mapping (its `repr` is never consulted), otherwise by its debug string
— as a single `default` step that, when it does not raise, always yields a
natively serializable value; encoding recurses into every nesting level and
drops no key.  `to_json` is, however, not total: a nested dict key that is
not a JSON primitive raises `TypeError` (the fallback is consulted only for
values, never for keys) and a raising user `__repr__` propagates; on the
domain where every nested dict key is primitive and no reachable `repr`
raises, `to_json` succeeds. -/
theorem safe_serialize_fixed_order_can_raise
    (rec dund d1 d2 kvs : List (PyKey × SVal)) (r r1 r2 : Option String)
    (s : String) (xs : List SVal) (tk : List PyKey) (v0 w : SVal) :
    encodeJsonE (.traceV rec dund)
      = Except.bind (safe_serialize (.traceV rec dund)) encodeJsonE
    ∧ encodeJsonE (.objV dund r)
      = Except.bind (safe_serialize (.objV dund r)) encodeJsonE
    ∧ encodeJsonE (.noDictV r)
      = Except.bind (safe_serialize (.noDictV r)) encodeJsonE
    ∧ safe_serialize (SVal.traceV rec dund) = .ok (.dictV rec)
    ∧ safe_serialize (SVal.objV dund r) = .ok (.dictV dund)
    ∧ safe_serialize (SVal.noDictV (some s)) = .ok (.strV2 s)
    ∧ safe_serialize (SVal.noDictV none) = .error "repr raised"
    ∧ encodeJsonE (.traceV rec d1) = encodeJsonE (.traceV rec d2)
    ∧ encodeJsonE (.objV dund r1) = encodeJsonE (.objV dund r2)
    ∧ encodeJsonE (.dictV kvs) = Except.map Json.obj (encodePairsE kvs)
    ∧ encodeJsonE (.listV xs) = Except.map Json.arr (encodeListE xs)
    ∧ (∀ js, encodePairsE kvs = .ok js →
        List.Forall₂ (fun p q => jsonKey p.1 = Except.ok q.1
          ∧ encodeJsonE p.2 = Except.ok q.2) kvs js)
    ∧ (∀ js, encodePairsE kvs = .ok js → js.length = kvs.length)
    ∧ encodePairsE ((PyKey.tupleK tk, v0) :: kvs)
        = .error "TypeError: keys must be str, int, float, bool or None"
    ∧ (∀ u s2, safe_serialize u = Except.ok s2 → isNative s2 = true)
    ∧ (benign w = true → exOk (encodeJsonE w) = true) := by
  refine ⟨rfl, rfl, ?_, rfl, rfl, rfl, rfl, rfl, rfl, ?_, ?_,
    fun js h => encodePairsE_forall2 kvs js h,
    fun js h => ((encodePairsE_forall2 kvs js h).length_eq).symm,
    rfl,
    fun u s2 h => isNative_of_safe_serialize u s2 h,
    fun h => benign_encode_ok w h⟩
  · cases r <;> rfl
  · cases h10 : encodePairsE kvs <;> simp [encodeJsonE, h10, Except.map]
  · cases h11 : encodeListE xs <;> simp [encodeJsonE, h11, Except.map]

/-- C4 witness: the hypotheses of the amended theorem hold at concrete
inputs — a one-entry dict with a string key encodes entry-by-entry, and a
benign value encodes successfully. -/
theorem safe_serialize_fixed_order_can_raise_holds :
    List.Forall₂ (fun p q => jsonKey p.1 = Except.ok q.1
        ∧ encodeJsonE p.2 = Except.ok q.2)
      [(PyKey.strK "a", SVal.intV2 1)] [("a", Json.num 1)]
    ∧ exOk (encodeJsonE (SVal.noDictV (some "ok"))) = true := by
  have T := safe_serialize_fixed_order_can_raise [] [] [] []
      [(PyKey.strK "a", SVal.intV2 1)] none none none "s" [] []
      SVal.nullV (SVal.noDictV (some "ok"))
  obtain ⟨_, _, _, _, _, _, _, _, _, _, _, h12, _, _, _, h16⟩ := T
  exact ⟨h12 [("a", Json.num 1)] rfl, h16 rfl⟩
